import Mathlib

/-!
Shallow embedding of `scripts/extract_schemas.py`.

The script converts OpenAPI schema objects (parsed YAML, i.e. ordered
key/value mappings) into simplified JSON-Schema mappings and writes one
file per extracted schema.  We model the parsed YAML/JSON values with the
inductive `JValue`; Python dicts become ordered association lists
`List (String × JValue)` (Python dicts preserve insertion order, which the
output key-order claims depend on).  Python code paths that raise an
exception on ill-typed input (e.g. recursing into a non-dict `items`
value) are modelled with `Option`: `none` is an unhandled exception.
-/

namespace ExtractSchemas

/-- A parsed YAML/JSON value, as produced by `yaml.safe_load`.
Scalars other than strings are represented by `null`, `bool` and `num`
(the claims under study never inspect numeric values). -/
inductive JValue where
  | null : JValue
  | bool (b : Bool) : JValue
  | num (n : Int) : JValue
  | str (s : String) : JValue
  | arr (elems : List JValue) : JValue
  | obj (fields : List (String × JValue)) : JValue

mutual

/-- Python `str()`/`repr()` of a parsed value, needed for the f-string
`"Reference: ..."` in `convert_property`.  `pyRepr` is the `repr` used for
elements nested inside containers. -/
def pyRepr : JValue → String
  | JValue.null => "None"
  | JValue.bool true => "True"
  | JValue.bool false => "False"
  | JValue.num n => toString n
  | JValue.str s => "\x27" ++ s ++ "\x27"
  | JValue.arr elems => "[" ++ String.intercalate ", " (pyReprList elems) ++ "]"
  | JValue.obj fields => "\x7b" ++ String.intercalate ", " (pyReprFields fields) ++ "\x7d"

/-- `repr` of each element of a Python list. -/
def pyReprList : List JValue → List String
  | [] => []
  | v :: vs => pyRepr v :: pyReprList vs

/-- `repr` of each `key: value` entry of a Python dict. -/
def pyReprFields : List (String × JValue) → List String
  | [] => []
  | (k, v) :: fs => ("\x27" ++ k ++ "\x27" ++ ": " ++ pyRepr v) :: pyReprFields fs

end

/-- Python `str()` at top level: strings print without quotes, containers
print as their `repr`. -/
def pyStr : JValue → String
  | JValue.str s => s
  | v => pyRepr v

/-- `result[k] = src[k] if "k" in src` — appends the entry `(k, src[k])`
to the (insertion-ordered) dict under construction when `k` is present in
`src`, else leaves it unchanged. -/
def copyKey (src : List (String × JValue)) (k : String) (acc : List (String × JValue)) :
    List (String × JValue) :=
  match src.lookup k with
  | some v => acc ++ [(k, v)]
  | none => acc

theorem lookup_sizeOf_lt {l : List (String × JValue)} {k : String} {v : JValue}
    (h : l.lookup k = some v) : sizeOf v < sizeOf l := by
  induction l with
  | nil => simp [List.lookup] at h
  | cons p rest ih =>
    obtain ⟨a, b⟩ := p
    rw [List.lookup] at h
    cases hk : (k == a) with
    | true =>
      rw [hk] at h
      simp at h
      subst h
      simp
      omega
    | false =>
      rw [hk] at h
      have := ih h
      simp
      omega

/-- Python equality test `prop.get("type") == "array"`: true exactly when
the lookup produced the string `"array"`. -/
def isArrayType : Option JValue → Bool
  | some (JValue.str s) => s == "array"
  | _ => false

/-- The first three copy statements of `convert_property` (lines 65–75 of
the script): the fresh `result` dict after copying `type`, `description`
and `example`, in that insertion order. -/
def prop_base (fields : List (String × JValue)) : List (String × JValue) :=
  copyKey fields "example" (copyKey fields "description" (copyKey fields "type" []))

/-- The last two copy statements of `convert_property` (lines 81–87 of the
script): append `format` and then `enum` to the partial result `r`. -/
def prop_finish (fields : List (String × JValue)) (r : List (String × JValue)) :
    List (String × JValue) :=
  copyKey fields "enum" (copyKey fields "format" r)

/-- `convert_property` from the script.  Input is an arbitrary parsed
value; a non-dict input raises in Python (modelled as `none`).  The result
dict is built in the source's insertion order: `type`, `description`,
`example`, `items` (only when `type == "array"` and `items` is present),
`format`, `enum`; a `$ref` key short-circuits everything. -/
def convert_property : JValue → Option JValue
  | JValue.obj fields =>
    match fields.lookup "$ref" with
    | some ref =>
      some (JValue.obj [("type", JValue.str "object"),
        ("description", JValue.str ("Reference: " ++ pyStr ref))])
    | none =>
      if isArrayType (fields.lookup "type") then
        match hm : fields.lookup "items" with
        | some it =>
          match convert_property it with
          | some c =>
            some (JValue.obj (prop_finish fields (prop_base fields ++ [("items", c)])))
          | none => none
        | none =>
          some (JValue.obj (prop_finish fields (prop_base fields)))
      else
        some (JValue.obj (prop_finish fields (prop_base fields)))
  | _ => none
termination_by v => sizeOf v
decreasing_by
  have := lookup_sizeOf_lt hm
  simp
  omega

/-- The loop body of `convert_openapi_to_jsonschema` over the entries of
the input's `properties` dict: each value is converted independently with
`convert_property`, keys and their order are kept.  A failing conversion
(Python exception) aborts the whole schema conversion. -/
def convertProps : List (String × JValue) → Option (List (String × JValue))
  | [] => some []
  | (k, v) :: rest =>
    match convert_property v with
    | some c =>
      match convertProps rest with
      | some cs => some ((k, c) :: cs)
      | none => none
    | none => none

/-- The initial `json_schema` dict of `convert_openapi_to_jsonschema`
(lines 31–39 of the script) after the `title`/`description` copies:
`$schema` fixed to the draft-07 identifier, `type` defaulted with
`.get("type", "object")`, then `title` and `description` copied when
present. -/
def schema_base (openapi_schema : List (String × JValue)) : List (String × JValue) :=
  copyKey openapi_schema "description" (copyKey openapi_schema "title"
    [("$schema", JValue.str "http://json-schema.org/draft-07/schema#"),
     ("type", (openapi_schema.lookup "type").getD (JValue.str "object"))])

/-- `convert_openapi_to_jsonschema` from the script.  The fresh result
dict starts with `$schema` and `type` (defaulted to `"object"`), then
copies `title` and `description`, then the converted `properties`, then
`required` — in that insertion order.  A `properties` value that is not a
dict raises in Python (`.items()` on a non-dict), modelled as `none`. -/
def convert_openapi_to_jsonschema (openapi_schema : List (String × JValue)) :
    Option (List (String × JValue)) :=
  match openapi_schema.lookup "properties" with
  | some (JValue.obj props) =>
    match convertProps props with
    | some cprops =>
      some (copyKey openapi_schema "required"
        (schema_base openapi_schema ++ [("properties", JValue.obj cprops)]))
    | none => none
  | some _ => none
  | none => some (copyKey openapi_schema "required" (schema_base openapi_schema))

/-- One character of the camelCase→snake_case list comprehension:
`"_" + c.lower() if c.isupper() else c`. -/
def snake_step (c : Char) : List Char :=
  if c.isUpper then ['_', c.toLower] else [c]

/-- The output-filename transform of `extract_schemas`:
`"".join(["_" + c.lower() if c.isupper() else c for c in name]).lstrip("_")`.
Python's `lstrip("_")` removes every leading underscore. -/
def camel_to_snake (name : String) : String :=
  String.mk ((name.data.flatMap snake_step).dropWhile (fun c => c == '_'))

/-- The warning printed to stderr for a requested schema name that is
absent from the definitions table. -/
def warning_msg (name : String) : String :=
  "✗ Schema \x27" ++ name ++ "\x27 not found in swagger.yaml"

/-- The observable outcome of the extraction loop: files written (output
filename paired with converted schema content), warning lines printed to
the error stream, and the count of extracted schemas. -/
structure ExtractResult where
  files : List (String × List (String × JValue))
  errs : List String
  extracted : Nat

/-- `convert_openapi_to_jsonschema` applied to a definitions-table entry;
a non-dict entry raises in Python (`.get` on a non-dict). -/
def convert_schema_def : JValue → Option (List (String × JValue))
  | JValue.obj fields => convert_openapi_to_jsonschema fields
  | _ => none

/-- The per-name loop of `extract_schemas`: a found name is converted,
written to `<snake_case name>.json` and counted; a missing name emits a
warning and processing continues with the remaining names.  `none` models
an unhandled exception during conversion (which aborts the run). -/
def extract_loop (definitions : List (String × JValue)) :
    List String → Option ExtractResult
  | [] => some ⟨[], [], 0⟩
  | name :: rest =>
    match definitions.lookup name with
    | some schema_def =>
      match convert_schema_def schema_def with
      | some js =>
        match extract_loop definitions rest with
        | some r =>
          some ⟨(camel_to_snake name ++ ".json", js) :: r.files, r.errs, r.extracted + 1⟩
        | none => none
      | none => none
    | none =>
      match extract_loop definitions rest with
      | some r => some ⟨r.files, warning_msg name :: r.errs, r.extracted⟩
      | none => none

/-- The built-in default list of schema names used when `--schemas` is not
given. -/
def default_schema_names : List String :=
  ["account", "status", "instance", "accountRelationship", "poll", "notification",
   "list", "filter", "filterV2", "conversation", "scheduledStatus", "mediaAttachment",
   "emoji", "tag", "card", "application"]

/-- Exit status of `main`: `some code` is a normal process exit, `none` a
run that dies on an unhandled exception.  `main` exits 1 before any
extraction when the swagger file is missing; otherwise the extraction
loop runs to completion and the process exits 0. -/
def main_exit (swagger_found : Bool) (definitions : List (String × JValue))
    (schema_names : List String) : Option Nat :=
  if swagger_found then
    match extract_loop definitions schema_names with
    | some _ => some 0
    | none => none
  else some 1

/-! ### Lemmas about `List.lookup` on appended association lists -/

theorem lookup_append_some {l₁ l₂ : List (String × JValue)} {k : String} {v : JValue}
    (h : l₁.lookup k = some v) : (l₁ ++ l₂).lookup k = some v := by
  induction l₁ with
  | nil => simp [List.lookup] at h
  | cons p rest ih =>
    obtain ⟨a, b⟩ := p
    rw [List.lookup] at h
    rw [List.cons_append, List.lookup]
    cases hk : (k == a) with
    | true => rw [hk] at h; exact h
    | false => rw [hk] at h; exact ih h

theorem lookup_append_none {l₁ l₂ : List (String × JValue)} {k : String}
    (h : l₁.lookup k = none) : (l₁ ++ l₂).lookup k = l₂.lookup k := by
  induction l₁ with
  | nil => simp
  | cons p rest ih =>
    obtain ⟨a, b⟩ := p
    rw [List.lookup] at h
    rw [List.cons_append, List.lookup]
    cases hk : (k == a) with
    | true => rw [hk] at h; exact absurd h (by simp)
    | false => rw [hk] at h; exact ih h

theorem lookup_append_single_ne {l : List (String × JValue)} {k j : String}
    (h : k ≠ j) (v : JValue) : (l ++ [(j, v)]).lookup k = l.lookup k := by
  have hb : (k == j) = false := by
    simp only [beq_eq_false_iff_ne, ne_eq]
    exact h
  cases ha : l.lookup k with
  | some w => rw [lookup_append_some ha]
  | none => rw [lookup_append_none ha, List.lookup, hb]; rfl

theorem copyKey_of_some {src : List (String × JValue)} {k : String} {v : JValue}
    (h : src.lookup k = some v) (acc : List (String × JValue)) :
    copyKey src k acc = acc ++ [(k, v)] := by
  unfold copyKey; rw [h]

theorem copyKey_of_none {src : List (String × JValue)} {k : String}
    (h : src.lookup k = none) (acc : List (String × JValue)) :
    copyKey src k acc = acc := by
  unfold copyKey; rw [h]

theorem lookup_copyKey_ne {k k' : String} (h : k' ≠ k)
    (src acc : List (String × JValue)) :
    (copyKey src k acc).lookup k' = acc.lookup k' := by
  unfold copyKey
  cases hv : src.lookup k with
  | none => rfl
  | some v => exact lookup_append_single_ne h v

theorem lookup_copyKey_self {src acc : List (String × JValue)} {k : String}
    (h : acc.lookup k = none) :
    (copyKey src k acc).lookup k = src.lookup k := by
  unfold copyKey
  cases hv : src.lookup k with
  | none => exact h
  | some v => rw [lookup_append_none h]; simp [List.lookup]

theorem mem_copyKey {src acc : List (String × JValue)} {k : String}
    {p : String × JValue} (h : p ∈ copyKey src k acc) : p ∈ acc ∨ p.1 = k := by
  unfold copyKey at h
  cases hv : src.lookup k with
  | none => rw [hv] at h; exact Or.inl h
  | some v =>
    rw [hv] at h
    rcases List.mem_append.mp h with h1 | h1
    · exact Or.inl h1
    · right; simp at h1; rw [h1]

/-! ### Lookup characterisations of the partial results of `convert_property` -/

theorem lookup_prop_base_type (fields : List (String × JValue)) :
    (prop_base fields).lookup "type" = fields.lookup "type" := by
  unfold prop_base
  rw [lookup_copyKey_ne (by decide), lookup_copyKey_ne (by decide)]
  exact lookup_copyKey_self rfl

theorem lookup_prop_base_description (fields : List (String × JValue)) :
    (prop_base fields).lookup "description" = fields.lookup "description" := by
  unfold prop_base
  rw [lookup_copyKey_ne (by decide)]
  apply lookup_copyKey_self
  rw [lookup_copyKey_ne (by decide)]
  rfl

theorem lookup_prop_base_example (fields : List (String × JValue)) :
    (prop_base fields).lookup "example" = fields.lookup "example" := by
  unfold prop_base
  apply lookup_copyKey_self
  rw [lookup_copyKey_ne (by decide), lookup_copyKey_ne (by decide)]
  rfl

theorem lookup_prop_base_none (fields : List (String × JValue)) {k : String}
    (h1 : k ≠ "example") (h2 : k ≠ "description") (h3 : k ≠ "type") :
    (prop_base fields).lookup k = none := by
  unfold prop_base
  rw [lookup_copyKey_ne h1, lookup_copyKey_ne h2, lookup_copyKey_ne h3]
  rfl

theorem lookup_prop_finish_ne {k : String} (h1 : k ≠ "enum") (h2 : k ≠ "format")
    (fields r : List (String × JValue)) :
    (prop_finish fields r).lookup k = r.lookup k := by
  unfold prop_finish
  rw [lookup_copyKey_ne h1, lookup_copyKey_ne h2]

theorem lookup_prop_finish_format (fields r : List (String × JValue))
    (h : r.lookup "format" = none) :
    (prop_finish fields r).lookup "format" = fields.lookup "format" := by
  unfold prop_finish
  rw [lookup_copyKey_ne (by decide)]
  exact lookup_copyKey_self h

theorem lookup_prop_finish_enum (fields r : List (String × JValue))
    (h : r.lookup "enum" = none) :
    (prop_finish fields r).lookup "enum" = fields.lookup "enum" := by
  unfold prop_finish
  apply lookup_copyKey_self
  rw [lookup_copyKey_ne (by decide)]
  exact h

/-! ### Unfolding lemmas for `convert_property` on dict inputs -/

theorem convert_property_ref {fields : List (String × JValue)} {ref : JValue}
    (h : fields.lookup "$ref" = some ref) :
    convert_property (JValue.obj fields) =
      some (JValue.obj [("type", JValue.str "object"),
        ("description", JValue.str ("Reference: " ++ pyStr ref))]) := by
  simp [convert_property, h]

theorem convert_property_notarray {fields : List (String × JValue)}
    (href : fields.lookup "$ref" = none)
    (harr : isArrayType (fields.lookup "type") = false) :
    convert_property (JValue.obj fields) =
      some (JValue.obj (prop_finish fields (prop_base fields))) := by
  simp [convert_property, href, harr]

theorem convert_property_array_noitems {fields : List (String × JValue)}
    (href : fields.lookup "$ref" = none)
    (harr : isArrayType (fields.lookup "type") = true)
    (hit : fields.lookup "items" = none) :
    convert_property (JValue.obj fields) =
      some (JValue.obj (prop_finish fields (prop_base fields))) := by
  simp only [convert_property, href, harr, if_true]
  split
  · rename_i it hm'
    rw [hit] at hm'
    cases hm'
  · rfl

theorem convert_property_array_items {fields : List (String × JValue)} {it : JValue}
    (href : fields.lookup "$ref" = none)
    (harr : isArrayType (fields.lookup "type") = true)
    (hit : fields.lookup "items" = some it) :
    convert_property (JValue.obj fields) =
      match convert_property it with
      | some c => some (JValue.obj (prop_finish fields (prop_base fields ++ [("items", c)])))
      | none => none := by
  simp only [convert_property, href, harr, if_true]
  split
  · rename_i it' hm'
    rw [hit, Option.some.injEq] at hm'
    rw [hm']
  · rename_i hm'
    rw [hit] at hm'
    cases hm'

/-! ### Lemmas about `schema_base`, `convertProps` and the shape of
`convert_openapi_to_jsonschema` results -/

theorem lookup_schema_base_schema (s : List (String × JValue)) :
    (schema_base s).lookup "$schema" =
      some (JValue.str "http://json-schema.org/draft-07/schema#") := by
  unfold schema_base
  rw [lookup_copyKey_ne (by decide), lookup_copyKey_ne (by decide)]
  simp [List.lookup]

theorem lookup_schema_base_type (s : List (String × JValue)) :
    (schema_base s).lookup "type" =
      some ((s.lookup "type").getD (JValue.str "object")) := by
  unfold schema_base
  rw [lookup_copyKey_ne (by decide), lookup_copyKey_ne (by decide)]
  simp [List.lookup]

theorem lookup_schema_base_none (s : List (String × JValue)) {k : String}
    (h1 : k ≠ "description") (h2 : k ≠ "title")
    (h3 : k ≠ "$schema") (h4 : k ≠ "type") :
    (schema_base s).lookup k = none := by
  unfold schema_base
  rw [lookup_copyKey_ne h1, lookup_copyKey_ne h2]
  have hb3 : (k == "$schema") = false := by
    simp only [beq_eq_false_iff_ne, ne_eq]; exact h3
  have hb4 : (k == "type") = false := by
    simp only [beq_eq_false_iff_ne, ne_eq]; exact h4
  simp only [List.lookup, hb3, hb4]

theorem mem_schema_base {s : List (String × JValue)} {p : String × JValue}
    (h : p ∈ schema_base s) :
    p.1 = "$schema" ∨ p.1 = "type" ∨ p.1 = "title" ∨ p.1 = "description" := by
  unfold schema_base at h
  rcases mem_copyKey h with h1 | h1
  · rcases mem_copyKey h1 with h2 | h2
    · simp at h2
      rcases h2 with h3 | h3 <;> rw [h3] <;> simp
    · exact Or.inr (Or.inr (Or.inl h2))
  · exact Or.inr (Or.inr (Or.inr h1))

theorem convertProps_spec {props cprops : List (String × JValue)}
    (h : convertProps props = some cprops) :
    cprops.map Prod.fst = props.map Prod.fst ∧
      List.Forall₂ (fun p c => p.1 = c.1 ∧ convert_property p.2 = some c.2)
        props cprops := by
  induction props generalizing cprops with
  | nil =>
    rw [convertProps] at h
    rw [(Option.some.injEq _ _).mp h.symm]
    exact ⟨rfl, List.Forall₂.nil⟩
  | cons p rest ih =>
    obtain ⟨k, v⟩ := p
    rw [convertProps] at h
    cases hc : convert_property v with
    | none => rw [hc] at h; cases h
    | some c =>
      rw [hc] at h
      cases hr : convertProps rest with
      | none => rw [hr] at h; cases h
      | some cs =>
        rw [hr] at h
        rw [(Option.some.injEq _ _).mp h.symm]
        obtain ⟨ih1, ih2⟩ := ih hr
        constructor
        · simp [ih1]
        · exact List.Forall₂.cons ⟨rfl, hc⟩ ih2

theorem convert_openapi_shape {s out : List (String × JValue)}
    (h : convert_openapi_to_jsonschema s = some out) :
    ∃ mid, out = copyKey s "required" (schema_base s ++ mid) ∧
      ∀ p ∈ mid, p.1 = "properties" := by
  cases hp : s.lookup "properties" with
  | none =>
    simp only [convert_openapi_to_jsonschema, hp, Option.some.injEq] at h
    refine ⟨[], ?_, by simp⟩
    rw [List.append_nil]
    exact h.symm
  | some v =>
    cases v with
    | obj props =>
      cases hc : convertProps props with
      | none =>
        simp only [convert_openapi_to_jsonschema, hp, hc] at h
        exact Option.noConfusion h
      | some cprops =>
        simp only [convert_openapi_to_jsonschema, hp, hc, Option.some.injEq] at h
        refine ⟨[("properties", JValue.obj cprops)], h.symm, ?_⟩
        intro p hp2
        simp at hp2
        rw [hp2]
    | null => simp only [convert_openapi_to_jsonschema, hp] at h; exact Option.noConfusion h
    | bool b => simp only [convert_openapi_to_jsonschema, hp] at h; exact Option.noConfusion h
    | num n => simp only [convert_openapi_to_jsonschema, hp] at h; exact Option.noConfusion h
    | str s2 => simp only [convert_openapi_to_jsonschema, hp] at h; exact Option.noConfusion h
    | arr elems => simp only [convert_openapi_to_jsonschema, hp] at h; exact Option.noConfusion h

/-! ### Shape of `convert_property` results without `$ref` -/

theorem isArrayType_iff (o : Option JValue) :
    isArrayType o = true ↔ o = some (JValue.str "array") := by
  cases o with
  | none => simp [isArrayType]
  | some v => cases v <;> simp [isArrayType]

theorem prop_result_lookup (fields mid : List (String × JValue))
    (hmid : ∀ k : String, k ≠ "items" → mid.lookup k = (prop_base fields).lookup k) :
    (prop_finish fields mid).lookup "type" = fields.lookup "type" ∧
    (prop_finish fields mid).lookup "description" = fields.lookup "description" ∧
    (prop_finish fields mid).lookup "example" = fields.lookup "example" ∧
    (prop_finish fields mid).lookup "format" = fields.lookup "format" ∧
    (prop_finish fields mid).lookup "enum" = fields.lookup "enum" := by
  refine ⟨?_, ?_, ?_, ?_, ?_⟩
  · rw [lookup_prop_finish_ne (by decide) (by decide), hmid _ (by decide),
      lookup_prop_base_type]
  · rw [lookup_prop_finish_ne (by decide) (by decide), hmid _ (by decide),
      lookup_prop_base_description]
  · rw [lookup_prop_finish_ne (by decide) (by decide), hmid _ (by decide),
      lookup_prop_base_example]
  · have hfmt : mid.lookup "format" = none := by
      rw [hmid _ (by decide)]
      exact lookup_prop_base_none fields (by decide) (by decide) (by decide)
    exact lookup_prop_finish_format fields mid hfmt
  · have hen : mid.lookup "enum" = none := by
      rw [hmid _ (by decide)]
      exact lookup_prop_base_none fields (by decide) (by decide) (by decide)
    exact lookup_prop_finish_enum fields mid hen

theorem convert_property_obj_shape {fields out : List (String × JValue)}
    (href : fields.lookup "$ref" = none)
    (h : convert_property (JValue.obj fields) = some (JValue.obj out)) :
    out = prop_finish fields (prop_base fields) ∨
      ∃ it c, fields.lookup "items" = some it ∧
        isArrayType (fields.lookup "type") = true ∧
        convert_property it = some c ∧
        out = prop_finish fields (prop_base fields ++ [("items", c)]) := by
  cases harr : isArrayType (fields.lookup "type") with
  | false =>
    rw [convert_property_notarray href harr] at h
    left
    simpa using h.symm
  | true =>
    cases hit : fields.lookup "items" with
    | none =>
      rw [convert_property_array_noitems href harr hit] at h
      left
      simpa using h.symm
    | some it =>
      rw [convert_property_array_items href harr hit] at h
      cases hc : convert_property it with
      | none => rw [hc] at h; exact Option.noConfusion h
      | some c =>
        rw [hc] at h
        right
        exact ⟨it, c, rfl, rfl, hc, by simpa using h.symm⟩

/-! ### The claims about `convert_property` -/

/-- C1: for every Property Object mapping containing a `$ref` key,
`convert_property` returns exactly the two-field mapping whose `type` is
`"object"` and whose `description` is `"Reference: "` followed by the
`$ref` value, regardless of which other keys are present on the input. -/
theorem c1_ref_shortcircuit (fields : List (String × JValue)) (ref : JValue)
    (h : fields.lookup "$ref" = some ref) :
    convert_property (JValue.obj fields) =
      some (JValue.obj [("type", JValue.str "object"),
        ("description", JValue.str ("Reference: " ++ pyStr ref))]) :=
  convert_property_ref h

/-- Witness for C1 at a concrete input carrying extra keys next to `$ref`. -/
theorem c1_ref_shortcircuit_witness :
    convert_property (JValue.obj [("type", JValue.str "string"),
        ("$ref", JValue.str "#/definitions/account"),
        ("enum", JValue.arr [JValue.str "a"])]) =
      some (JValue.obj [("type", JValue.str "object"),
        ("description", JValue.str ("Reference: " ++ pyStr (JValue.str "#/definitions/account")))]) :=
  c1_ref_shortcircuit
    [("type", JValue.str "string"), ("$ref", JValue.str "#/definitions/account"),
     ("enum", JValue.arr [JValue.str "a"])]
    (JValue.str "#/definitions/account") (by simp [List.lookup])

/-- C3: for every Property Object mapping without a `$ref` key whose
conversion returns a result, each of the keys `type`, `description`,
`example`, `format`, `enum` present on the input appears on the
`convert_property` output with the identical value, and each of those keys
absent on the input is absent on the output. -/
theorem c3_field_copy (fields out : List (String × JValue))
    (href : fields.lookup "$ref" = none)
    (h : convert_property (JValue.obj fields) = some (JValue.obj out)) :
    out.lookup "type" = fields.lookup "type" ∧
    out.lookup "description" = fields.lookup "description" ∧
    out.lookup "example" = fields.lookup "example" ∧
    out.lookup "format" = fields.lookup "format" ∧
    out.lookup "enum" = fields.lookup "enum" := by
  rcases convert_property_obj_shape href h with hout | ⟨it, c, hit, harr, hc, hout⟩
  · rw [hout]
    exact prop_result_lookup fields _ (fun k _ => rfl)
  · rw [hout]
    exact prop_result_lookup fields _ (fun k hk => lookup_append_single_ne hk c)

/-- Witness for C3: a concrete input with `type` and `format` present (in
reversed order) and `description`, `example`, `enum` absent. -/
theorem c3_field_copy_witness :
    List.lookup "type" [("type", JValue.str "string"), ("format", JValue.str "date")] =
      List.lookup "type" [("format", JValue.str "date"), ("type", JValue.str "string")] ∧
    List.lookup "description" [("type", JValue.str "string"), ("format", JValue.str "date")] =
      List.lookup "description" [("format", JValue.str "date"), ("type", JValue.str "string")] ∧
    List.lookup "example" [("type", JValue.str "string"), ("format", JValue.str "date")] =
      List.lookup "example" [("format", JValue.str "date"), ("type", JValue.str "string")] ∧
    List.lookup "format" [("type", JValue.str "string"), ("format", JValue.str "date")] =
      List.lookup "format" [("format", JValue.str "date"), ("type", JValue.str "string")] ∧
    List.lookup "enum" [("type", JValue.str "string"), ("format", JValue.str "date")] =
      List.lookup "enum" [("format", JValue.str "date"), ("type", JValue.str "string")] :=
  c3_field_copy [("format", JValue.str "date"), ("type", JValue.str "string")]
    [("type", JValue.str "string"), ("format", JValue.str "date")]
    (by simp [List.lookup])
    (by simp [convert_property, List.lookup, isArrayType, prop_base, prop_finish, copyKey])

/-- C4: for every Property Object without `$ref` whose `type` equals
`"array"` and which has an `items` key, the output's `items` value equals
the recursive `convert_property` conversion of the input's `items` value
(the statement quantifies over all field lists, including nested ones, so
the equation holds at every nesting depth); and an `items` key is produced
only under this condition. -/
theorem c4_items_recursion (fields out : List (String × JValue))
    (h : convert_property (JValue.obj fields) = some (JValue.obj out)) :
    (∀ it : JValue, fields.lookup "$ref" = none →
      fields.lookup "type" = some (JValue.str "array") →
      fields.lookup "items" = some it →
      ∃ c, convert_property it = some c ∧ out.lookup "items" = some c) ∧
    ((out.lookup "items").isSome = true →
      fields.lookup "$ref" = none ∧
      fields.lookup "type" = some (JValue.str "array") ∧
      (fields.lookup "items").isSome = true) := by
  constructor
  · intro it href htype hit
    have harr : isArrayType (fields.lookup "type") = true := by rw [htype]; rfl
    rw [convert_property_array_items href harr hit] at h
    cases hc : convert_property it with
    | none => rw [hc] at h; exact Option.noConfusion h
    | some c =>
      rw [hc] at h
      have hout : out = prop_finish fields (prop_base fields ++ [("items", c)]) := by
        simpa using h.symm
      refine ⟨c, rfl, ?_⟩
      rw [hout, lookup_prop_finish_ne (by decide) (by decide),
        lookup_append_none (lookup_prop_base_none fields (by decide) (by decide) (by decide))]
      simp [List.lookup]
  · intro hsome
    cases href : fields.lookup "$ref" with
    | some ref =>
      rw [convert_property_ref href] at h
      have hout : out = [("type", JValue.str "object"),
          ("description", JValue.str ("Reference: " ++ pyStr ref))] := by
        simpa using h.symm
      rw [hout] at hsome
      simp [List.lookup] at hsome
    | none =>
      rcases convert_property_obj_shape href h with hout | ⟨it, c, hit, harr, hc, hout⟩
      · rw [hout, lookup_prop_finish_ne (by decide) (by decide),
          lookup_prop_base_none fields (by decide) (by decide) (by decide)] at hsome
        simp at hsome
      · exact ⟨rfl, (isArrayType_iff _).mp harr, by rw [hit]; rfl⟩

/-- Witness for C4: a concrete array-of-string property; the output's
`items` is the conversion of the input's `items`. -/
theorem c4_items_recursion_witness :
    ∃ c, convert_property (JValue.obj [("type", JValue.str "string")]) = some c ∧
      List.lookup "items" [("type", JValue.str "array"),
        ("items", JValue.obj [("type", JValue.str "string")])] = some c :=
  (c4_items_recursion [("type", JValue.str "array"),
      ("items", JValue.obj [("type", JValue.str "string")])]
    [("type", JValue.str "array"), ("items", JValue.obj [("type", JValue.str "string")])]
    (by simp [convert_property, List.lookup, isArrayType, prop_base, prop_finish, copyKey])).1
    (JValue.obj [("type", JValue.str "string")])
    (by simp [List.lookup]) (by simp [List.lookup]) (by simp [List.lookup])

/-- C10: for a Property Object without `$ref` carrying all of `type`
(equal to `"array"`), `description`, `example`, `format`, `enum` and
`items`, the output keys appear in insertion order `type`, `description`,
`example`, `items`, `format`, `enum` — `items` is inserted before `format`
and `enum`, not after them. -/
theorem c10_key_order (fields out : List (String × JValue)) (d e f g it : JValue)
    (href : fields.lookup "$ref" = none)
    (htype : fields.lookup "type" = some (JValue.str "array"))
    (hdesc : fields.lookup "description" = some d)
    (hex : fields.lookup "example" = some e)
    (hfmt : fields.lookup "format" = some f)
    (henum : fields.lookup "enum" = some g)
    (hit : fields.lookup "items" = some it)
    (h : convert_property (JValue.obj fields) = some (JValue.obj out)) :
    out.map Prod.fst = ["type", "description", "example", "items", "format", "enum"] := by
  have harr : isArrayType (fields.lookup "type") = true := by rw [htype]; rfl
  rw [convert_property_array_items href harr hit] at h
  cases hc : convert_property it with
  | none => rw [hc] at h; exact Option.noConfusion h
  | some c =>
    rw [hc] at h
    have hout : out = prop_finish fields (prop_base fields ++ [("items", c)]) := by
      simpa using h.symm
    have hbase : prop_base fields =
        [("type", JValue.str "array"), ("description", d), ("example", e)] := by
      unfold prop_base
      rw [copyKey_of_some htype, copyKey_of_some hdesc, copyKey_of_some hex]
      simp
    rw [hout]
    unfold prop_finish
    rw [copyKey_of_some hfmt, copyKey_of_some henum, hbase]
    simp

/-- Witness for C10 at a concrete input carrying all six keys, with
`items` last on the input but fourth on the output. -/
theorem c10_key_order_witness :
    List.map Prod.fst [("type", JValue.str "array"), ("description", JValue.str "d"),
        ("example", JValue.num 1), ("items", JValue.obj [("type", JValue.str "string")]),
        ("format", JValue.str "f"), ("enum", JValue.arr [JValue.str "a"])] =
      ["type", "description", "example", "items", "format", "enum"] :=
  c10_key_order
    [("type", JValue.str "array"), ("description", JValue.str "d"),
     ("example", JValue.num 1), ("format", JValue.str "f"),
     ("enum", JValue.arr [JValue.str "a"]),
     ("items", JValue.obj [("type", JValue.str "string")])]
    [("type", JValue.str "array"), ("description", JValue.str "d"),
     ("example", JValue.num 1), ("items", JValue.obj [("type", JValue.str "string")]),
     ("format", JValue.str "f"), ("enum", JValue.arr [JValue.str "a"])]
    (JValue.str "d") (JValue.num 1) (JValue.str "f") (JValue.arr [JValue.str "a"])
    (JValue.obj [("type", JValue.str "string")])
    (by simp [List.lookup]) (by simp [List.lookup]) (by simp [List.lookup])
    (by simp [List.lookup]) (by simp [List.lookup]) (by simp [List.lookup])
    (by simp [List.lookup])
    (by simp [convert_property, List.lookup, isArrayType, prop_base, prop_finish, copyKey])

/-! ### The claims about `convert_openapi_to_jsonschema` -/

/-- C2: for every Schema Object whose conversion returns a result, the
output contains `$schema` equal to the fixed draft-07 identifier string
and `type` equal to the input's `type` value when present, or `"object"`
when the input has no `type` key. -/
theorem c2_schema_and_type (s out : List (String × JValue))
    (h : convert_openapi_to_jsonschema s = some out) :
    out.lookup "$schema" =
      some (JValue.str "http://json-schema.org/draft-07/schema#") ∧
    out.lookup "type" = some ((s.lookup "type").getD (JValue.str "object")) := by
  obtain ⟨mid, hout, hmid⟩ := convert_openapi_shape h
  constructor
  · rw [hout, lookup_copyKey_ne (by decide),
      lookup_append_some (lookup_schema_base_schema s)]
  · rw [hout, lookup_copyKey_ne (by decide),
      lookup_append_some (lookup_schema_base_type s)]

/-- Witness for C2 at a concrete schema with an explicit `type`. -/
theorem c2_schema_and_type_witness :
    List.lookup "$schema"
        [("$schema", JValue.str "http://json-schema.org/draft-07/schema#"),
         ("type", JValue.str "integer")] =
      some (JValue.str "http://json-schema.org/draft-07/schema#") ∧
    List.lookup "type"
        [("$schema", JValue.str "http://json-schema.org/draft-07/schema#"),
         ("type", JValue.str "integer")] =
      some ((List.lookup "type" [("type", JValue.str "integer")]).getD
        (JValue.str "object")) :=
  c2_schema_and_type [("type", JValue.str "integer")]
    [("$schema", JValue.str "http://json-schema.org/draft-07/schema#"),
     ("type", JValue.str "integer")]
    (by simp [convert_openapi_to_jsonschema, schema_base, copyKey, List.lookup])

/-- C5: for every Schema Object with a `properties` dict whose conversion
returns a result, the output's `properties` mapping has exactly the key
set and key order of the input's `properties`, with each value replaced by
`convert_property` of the corresponding input value. -/
theorem c5_properties_conversion (s props out : List (String × JValue))
    (hp : s.lookup "properties" = some (JValue.obj props))
    (h : convert_openapi_to_jsonschema s = some out) :
    ∃ cprops, out.lookup "properties" = some (JValue.obj cprops) ∧
      cprops.map Prod.fst = props.map Prod.fst ∧
      List.Forall₂ (fun p c => p.1 = c.1 ∧ convert_property p.2 = some c.2)
        props cprops := by
  cases hc : convertProps props with
  | none =>
    simp only [convert_openapi_to_jsonschema, hp, hc] at h
    exact Option.noConfusion h
  | some cprops =>
    simp only [convert_openapi_to_jsonschema, hp, hc, Option.some.injEq] at h
    obtain ⟨h1, h2⟩ := convertProps_spec hc
    refine ⟨cprops, ?_, h1, h2⟩
    rw [← h, lookup_copyKey_ne (by decide),
      lookup_append_none
        (lookup_schema_base_none s (by decide) (by decide) (by decide) (by decide))]
    simp [List.lookup]

/-- Witness for C5 at a schema with one string property. -/
theorem c5_properties_conversion_witness :
    ∃ cprops,
      List.lookup "properties"
          [("$schema", JValue.str "http://json-schema.org/draft-07/schema#"),
           ("type", JValue.str "object"),
           ("properties", JValue.obj [("id", JValue.obj [("type", JValue.str "string")])])] =
        some (JValue.obj cprops) ∧
      cprops.map Prod.fst =
        List.map Prod.fst [("id", JValue.obj [("type", JValue.str "string")])] ∧
      List.Forall₂ (fun p c => p.1 = c.1 ∧ convert_property p.2 = some c.2)
        [("id", JValue.obj [("type", JValue.str "string")])] cprops :=
  c5_properties_conversion
    [("type", JValue.str "object"),
     ("properties", JValue.obj [("id", JValue.obj [("type", JValue.str "string")])])]
    [("id", JValue.obj [("type", JValue.str "string")])]
    [("$schema", JValue.str "http://json-schema.org/draft-07/schema#"),
     ("type", JValue.str "object"),
     ("properties", JValue.obj [("id", JValue.obj [("type", JValue.str "string")])])]
    (by simp [List.lookup])
    (by simp [convert_openapi_to_jsonschema, convertProps, convert_property,
      schema_base, copyKey, List.lookup, isArrayType, prop_base, prop_finish])

/-- C9: the key set of every `convert_openapi_to_jsonschema` output is a
subset of `$schema`, `type`, `title`, `description`, `properties`,
`required`; in particular top-level `example`, `format`, `enum` and
`items` keys never appear on the output, so a top-level array schema loses
its `items`. -/
theorem c9_output_key_subset (s out : List (String × JValue))
    (h : convert_openapi_to_jsonschema s = some out) :
    (∀ p ∈ out, p.1 ∈ (["$schema", "type", "title", "description",
        "properties", "required"] : List String)) ∧
    "example" ∉ out.map Prod.fst ∧ "format" ∉ out.map Prod.fst ∧
    "enum" ∉ out.map Prod.fst ∧ "items" ∉ out.map Prod.fst := by
  obtain ⟨mid, hout, hmid⟩ := convert_openapi_shape h
  have hmain : ∀ p ∈ out, p.1 ∈ (["$schema", "type", "title", "description",
      "properties", "required"] : List String) := by
    intro p hp
    rw [hout] at hp
    rcases mem_copyKey hp with h1 | h1
    · rcases List.mem_append.mp h1 with h2 | h2
      · rcases mem_schema_base h2 with h3 | h3 | h3 | h3 <;> simp [h3]
      · simp [hmid p h2]
    · simp [h1]
  refine ⟨hmain, ?_, ?_, ?_, ?_⟩ <;>
  · intro hmem
    simp only [List.mem_map] at hmem
    obtain ⟨p, hp2, hfst⟩ := hmem
    have hin := hmain p hp2
    rw [hfst] at hin
    simp at hin

/-- Witness for C9: a top-level array schema with `items` and `example`
keys; its converted form keeps only `$schema` and `type`. -/
theorem c9_output_key_subset_witness :
    (∀ p ∈ [("$schema", JValue.str "http://json-schema.org/draft-07/schema#"),
        ("type", JValue.str "array")],
      p.1 ∈ (["$schema", "type", "title", "description",
        "properties", "required"] : List String)) ∧
    "example" ∉ List.map Prod.fst
        [("$schema", JValue.str "http://json-schema.org/draft-07/schema#"),
         ("type", JValue.str "array")] ∧
    "format" ∉ List.map Prod.fst
        [("$schema", JValue.str "http://json-schema.org/draft-07/schema#"),
         ("type", JValue.str "array")] ∧
    "enum" ∉ List.map Prod.fst
        [("$schema", JValue.str "http://json-schema.org/draft-07/schema#"),
         ("type", JValue.str "array")] ∧
    "items" ∉ List.map Prod.fst
        [("$schema", JValue.str "http://json-schema.org/draft-07/schema#"),
         ("type", JValue.str "array")] :=
  c9_output_key_subset
    [("type", JValue.str "array"),
     ("items", JValue.obj [("type", JValue.str "string")]),
     ("example", JValue.num 3)]
    [("$schema", JValue.str "http://json-schema.org/draft-07/schema#"),
     ("type", JValue.str "array")]
    (by simp [convert_openapi_to_jsonschema, schema_base, copyKey, List.lookup])

/-! ### The output-filename transform (C6) -/

theorem flatMap_snake_id : ∀ l : List Char, (∀ c ∈ l, c.isUpper = false) →
    l.flatMap snake_step = l
  | [], _ => rfl
  | c :: cs, hup => by
    have hc : c.isUpper = false := hup c (List.mem_cons_self c cs)
    have hcs := flatMap_snake_id cs (fun x hx => hup x (List.mem_cons_of_mem c hx))
    simp [snake_step, hc, hcs]

theorem dropWhile_no_underscore : ∀ l : List Char, l.head? ≠ some '_' →
    l.dropWhile (fun c => c == '_') = l
  | [], _ => rfl
  | c :: cs, hh => by
    have hc : c ≠ '_' := by
      intro he
      exact hh (by rw [List.head?_cons, he])
    simp [List.dropWhile_cons, hc]

/-- C6 counterexample: the name `"_foo"` contains no upper-case letter,
yet the transform maps it to `"foo"`, not to itself — Python lstrip
removes every leading underscore, whether or not the transform produced
it. -/
theorem c6_counterexample :
    (("_foo".data.all (fun c => !c.isUpper)) = true) ∧
    camel_to_snake "_foo" = "foo" ∧ camel_to_snake "_foo" ≠ "_foo" := by
  refine ⟨rfl, rfl, ?_⟩
  decide

/-- C6 amended: the transform replaces each upper-case letter by an
underscore followed by its lower-case form and then strips all leading
underscores of the result (not merely a leading underscore produced by the
transform); `accountRelationship` maps to `account_relationship`,
`filterV2` to `filter_v2`, and every name with no upper-case letter and no
leading underscore is mapped to itself unchanged. -/
theorem c6_snake_case_transform :
    camel_to_snake "accountRelationship" = "account_relationship" ∧
    camel_to_snake "filterV2" = "filter_v2" ∧
    ∀ name : String, (∀ c ∈ name.data, c.isUpper = false) →
      name.data.head? ≠ some '_' → camel_to_snake name = name := by
  refine ⟨rfl, rfl, ?_⟩
  intro name hup hhead
  obtain ⟨l⟩ := name
  show String.mk ((l.flatMap snake_step).dropWhile (fun c => c == '_')) = String.mk l
  rw [flatMap_snake_id l hup, dropWhile_no_underscore l hhead]

/-- Witness for C6 (amended): a lower-case name is unchanged. -/
theorem c6_snake_case_transform_witness : camel_to_snake "status" = "status" :=
  c6_snake_case_transform.2.2 "status" (by decide) (by decide)

/-! ### The extraction loop (C7) -/

/-- C7: a requested schema name absent from the definitions table
contributes no file, emits its warning on the error stream, is not
counted, and leaves the processing of the remaining names unchanged; and
when the source document was found, the process still exits 0 whenever the
rest of the run completes. -/
theorem c7_missing_schema_skipped (defs : List (String × JValue)) (name : String)
    (rest : List String) (hmiss : defs.lookup name = none) :
    extract_loop defs (name :: rest) =
      (extract_loop defs rest).map
        (fun r => ⟨r.files, warning_msg name :: r.errs, r.extracted⟩) ∧
    (∀ r, extract_loop defs rest = some r →
      main_exit true defs (name :: rest) = some 0) := by
  constructor
  · rw [extract_loop, hmiss]
    cases extract_loop defs rest <;> rfl
  · intro r hr
    simp [main_exit, extract_loop, hmiss, hr]

/-- Witness for C7: one missing name against a one-schema table. -/
theorem c7_missing_schema_skipped_witness :
    extract_loop [("account", JValue.obj [("type", JValue.str "object")])]
        ["missing"] = some ⟨[], [warning_msg "missing"], 0⟩ ∧
    main_exit true [("account", JValue.obj [("type", JValue.str "object")])]
        ["missing"] = some 0 := by
  have h := c7_missing_schema_skipped
    [("account", JValue.obj [("type", JValue.str "object")])] "missing" []
    (by simp [List.lookup])
  constructor
  · rw [h.1]; rfl
  · exact h.2 ⟨[], [], 0⟩ rfl

end ExtractSchemas
